import Mathlib

/-!
Verification development for the `PropGraph` property-graph layer
(`arachne/client/arachne/propgraphclass.py`).

The Python client manipulates arkouda dataframes (association lists of
column name to column) and a graph state consisting of the canonical
vertex universe, the canonical internal edge list, the node/edge
attribute tables, and the label/relationship mappers.  Each public
method is embedded as a pure Lean function that threads the graph
state, records every backend message (`ak.generic_msg`) it emits, and
records the first Python exception raised together with the state at
the moment of the raise (so that partially-applied mutations are
observable, exactly as with in-place mutation in Python).

External identifiers are modelled as integers; categorical values as
strings.  The arkouda bulk primitives (`GroupBy`, `in1d`, `find`,
`broadcast`) are not part of this repository; they are modelled from
the specification (sort-and-group with ascending stable sort,
set-membership, exact-lookup with -1 for not-found) and each such
definition is marked `Modelled from the spec:` in its doc comment.
-/

namespace Arachne

/-- A dataframe column: either a textual (arkouda `Strings`) column or an
integer (`pdarray`) column. -/
inductive Col where
  | strs : List String → Col
  | ints : List Int → Col
deriving DecidableEq

/-- Number of rows of a column. -/
def Col.length : Col → Nat
  | .strs vs => vs.length
  | .ints vs => vs.length

/-- Integer view of a column; node-identifier columns are modelled as
integer columns, so a textual column has an empty integer view. -/
def Col.asInts : Col → List Int
  | .strs _ => []
  | .ints vs => vs

/-- Positional row selection (arkouda fancy indexing by an index array). -/
def Col.selectRows : Col → List Nat → Col
  | .strs vs, is => .strs (is.map (fun i => vs.getD i ""))
  | .ints vs, is => .ints (is.map (fun i => vs.getD i 0))

/-- Row selection by a boolean mask, keeping rows whose mask entry is true. -/
def maskFilter {α : Type} (xs : List α) (m : List Bool) : List α :=
  (xs.zip m).filterMap (fun p => if p.2 then some p.1 else none)

/-- Boolean-mask row selection on a column. -/
def Col.maskRows : Col → List Bool → Col
  | .strs vs, m => .strs (maskFilter vs m)
  | .ints vs, m => .ints (maskFilter vs m)

/-- A dataframe: ordered association list from column name to column.
The same representation models the label/relationship mappers (Python
dicts from column name to an arkouda array). -/
abbrev DataFrame := List (String × Col)

/-- Column names of a dataframe, in order. -/
def dfColumns (df : DataFrame) : List String := df.map Prod.fst

/-- Column lookup, Python `df[name]` as an `Option`. -/
def dfGet : DataFrame → String → Option Col
  | [], _ => none
  | (n, c) :: rest, k => if n = k then some c else dfGet rest k

/-- Column assignment, Python `df[name] = col` / `dict[name] = value`:
replaces in place when the name exists, appends otherwise. -/
def dfSet : DataFrame → String → Col → DataFrame
  | [], k, v => [(k, v)]
  | (n, c) :: rest, k, v =>
      if n = k then (k, v) :: rest else (n, c) :: dfSet rest k v

/-- Python `df.drop(name, axis=1)`: remove the column of that name. -/
def dfDrop (df : DataFrame) (k : String) : DataFrame :=
  df.filter (fun p => !(p.1 = k : Bool))

/-- Positional row selection applied to every column of a dataframe. -/
def dfSelectRows (df : DataFrame) (is : List Nat) : DataFrame :=
  df.map (fun p => (p.1, p.2.selectRows is))

/-- Boolean-mask row selection applied to every column of a dataframe. -/
def dfMaskRows (df : DataFrame) (m : List Bool) : DataFrame :=
  df.map (fun p => (p.1, p.2.maskRows m))

/-- Index of the first occurrence of `k` in `ks` (length of `ks` when
absent); the deterministic resolver used to model arkouda index lookup. -/
def firstIdx {α : Type} [DecidableEq α] : List α → α → Nat
  | [], _ => 0
  | x :: xs, k => if x = k then 0 else firstIdx xs k + 1

/-- Character-list lexicographic order (true when the first list is less
than or equal to the second). -/
def charsLe : List Char → List Char → Bool
  | [], _ => true
  | _ :: _, [] => false
  | a :: as, b :: bs => if a = b then charsLe as bs else decide (a < b)

/-- Modelled from the spec: the backend's ascending order on strings —
lexicographic on the character sequence. -/
def strLe (a b : String) : Bool := charsLe a.data b.data

/-- The ascending order on integer keys. -/
def intLe (a b : Int) : Bool := decide (a ≤ b)

/-- The ascending lexicographic order on two-column (src,dst) keys. -/
def pairLe (p q : Int × Int) : Bool :=
  if p.1 = q.1 then decide (p.2 ≤ q.2) else decide (p.1 < q.1)

/-- Modelled from the spec: the backend sort used by sort-and-group —
the distinct values of a list in ascending order under `le`. -/
def sortedDistinctBy {α : Type} [DecidableEq α] (le : α → α → Bool) (xs : List α) : List α :=
  xs.dedup.insertionSort (fun a b => le a b = true)

/-- Modelled from the spec: `GroupBy(keys)` followed by
`permutation[segments]`.  The backend sorts the keys ascending with a
stable sort and returns the start of each group, so the composite
yields, for each distinct key in ascending order, the index of that
key's first occurrence in the original row order. -/
def gbSurvivors {α : Type} [DecidableEq α] (le : α → α → Bool) (ks : List α) : List Nat :=
  (sortedDistinctBy le ks).map (fun k => firstIdx ks k)

/-- Modelled from the spec: dictionary encoding of one textual column by
`GroupBy` + `broadcast(arange(k))` — each row receives the rank of its
value among the sorted distinct values, and the sorted distinct values
are stored as the column's dictionary. -/
def encodeColumn (vals : List String) : List Nat × List String :=
  let uk := sortedDistinctBy strLe vals
  (vals.map (fun v => firstIdx uk v), uk)

/-- Modelled from the spec: backend exact-lookup (`ak.find`) — position
of each query value in the search space, `-1` when absent. -/
def akFind (q : List Int) (space : List Int) : List Int :=
  q.map (fun v => if v ∈ space then (firstIdx space v : Int) else -1)

/-- Modelled from the spec: backend exact-lookup on (src,dst) pairs
(`ak.find` with a two-column key), `-1` for pairs not present. -/
def akFindPairs (q : List (Int × Int)) (space : List (Int × Int)) : List Int :=
  q.map (fun p => if p ∈ space then (firstIdx space p : Int) else -1)

/-- The distinct (src,dst) pairs in ascending lexicographic order. -/
def sortedDistinctPairs (ps : List (Int × Int)) : List (Int × Int) :=
  sortedDistinctBy pairLe ps

/-- Python exceptions observable from the embedded methods. -/
inductive PyErr where
  | keyError : String → PyErr
  | typeError : String → PyErr
  | valueError : String → PyErr
deriving DecidableEq

/-- One `ak.generic_msg` backend request: the command name, the array of
internal indices transmitted, and the "+"-joined column-name list. -/
structure BackendMsg where
  cmd : String
  inputIndices : List Int
  columnNames : List String
deriving DecidableEq

/-- The `PropGraph` state: canonical vertex universe (sorted unique
external ids), canonical internal edge list, the two attribute tables,
the two mappers, and the multigraph flag. -/
structure PropGraph where
  vertex_map : List Int
  edges : List (Int × Int)
  node_attributes : DataFrame
  edge_attributes : DataFrame
  label_mapper : DataFrame
  relationship_mapper : DataFrame
  multied : Nat
deriving DecidableEq

/-- A freshly constructed `PropGraph()`. -/
def emptyPropGraph : PropGraph :=
  { vertex_map := [], edges := [], node_attributes := [],
    edge_attributes := [], label_mapper := [], relationship_mapper := [],
    multied := 0 }

/-- Result of one embedded method call: the graph state when the call
returned or raised, the caller-visible input dataframe after the call
(in-place mutation is observable here), the backend messages emitted
before returning or raising, and the exception raised, if any. -/
structure CallResult where
  graph : PropGraph
  callerDf : DataFrame
  writes : List BackendMsg
  error : Option PyErr
deriving DecidableEq

/-- The `label_columns` / `relationship_columns` argument: `None`, a
single column name, or a list of column names. -/
inductive ColsArg where
  | nothing : ColsArg
  | one : String → ColsArg
  | many : List String → ColsArg
deriving DecidableEq

/-- Character-list prefix test. -/
def charsPrefix : List Char → List Char → Bool
  | [], _ => true
  | _ :: _, [] => false
  | a :: as, b :: bs => a = b && charsPrefix as bs

/-- Character-list contiguous-substring test. -/
def charsInfix : List Char → List Char → Bool
  | n, [] => charsPrefix n []
  | n, c :: t => charsPrefix n (c :: t) || charsInfix n t

/-- Python's `needle in haystack` on strings: substring containment. -/
def substrMem (needle haystack : String) : Bool :=
  charsInfix needle.data haystack.data

/-- Python `list.remove(x)`: erase the first occurrence, `ValueError`
when absent. -/
def listRemove (l : List String) (x : String) : Except PyErr (List String) :=
  if x ∈ l then .ok (l.erase x)
  else .error (.valueError "list.remove(x): x not in list")

/-- Step 2 of `add_node_labels`, one column: a textual column is
dictionary-encoded — its sorted distinct values become the mapper entry
and the broadcast codes overwrite the attribute-table column — while a
non-textual column only receives the placeholder mapper entry
`ak.array([" "])` and is left unencoded. -/
def applyLabelColumn (g : PropGraph) (name : String) (c : Col) : PropGraph :=
  match c with
  | .strs vals =>
      let enc := encodeColumn vals
      { g with
        label_mapper := dfSet g.label_mapper name (.strs enc.2),
        node_attributes :=
          dfSet g.node_attributes name (.ints (enc.1.map Int.ofNat)) }
  | .ints _ =>
      { g with label_mapper := dfSet g.label_mapper name (.strs [" "]) }

/-- Step 2 of `add_edge_relationships`, one column: mirror of
`applyLabelColumn` on the relationship mapper and edge attribute table. -/
def applyRelColumn (g : PropGraph) (name : String) (c : Col) : PropGraph :=
  match c with
  | .strs vals =>
      let enc := encodeColumn vals
      { g with
        relationship_mapper := dfSet g.relationship_mapper name (.strs enc.2),
        edge_attributes :=
          dfSet g.edge_attributes name (.ints (enc.1.map Int.ofNat)) }
  | .ints _ =>
      { g with relationship_mapper := dfSet g.relationship_mapper name (.strs [" "]) }

/-- `PropGraph.add_node_labels(labels)`.  Step 0 is the preliminary
column-name check exactly as written in the source: the list
comprehension `[self.node_attributes[col] for col in labels.columns]`
raises `KeyError` as soon as a column is *absent* from the node
attribute table, and that `KeyError` is re-raised as the
"duplicated attribute (column) name" error. -/
def add_node_labels (g : PropGraph) (labels : DataFrame) : CallResult :=
  if (dfColumns labels).any (fun c => (dfGet g.node_attributes c).isNone) then
    ⟨g, labels, [], some (.keyError "duplicated attribute (column) name in labels")⟩
  else
    match dfGet labels "nodes" with
    | none =>
        ⟨g, labels, [], some (.keyError "attribute (column) nodes does not exist in labels")⟩
    | some nodesCol =>
      let labels1 := dfDrop labels "nodes"
      let g1 := labels1.foldl (fun g2 nc => applyLabelColumn g2 nc.1 nc.2) g
      let vertexIds := nodesCol.asInts
      let mask := vertexIds.map (fun v => decide (v ∈ g.vertex_map))
      let vertexIds2 := maskFilter vertexIds mask
      let labels2 := dfMaskRows labels1 mask
      let internal := vertexIds2.map (fun v => (firstIdx g.vertex_map v : Int))
      let surv := gbSurvivors intLe internal
      let vertexIds3 := surv.map (fun i => internal.getD i 0)
      let labels3 := dfSelectRows labels2 surv
      ⟨g1, labels1, [⟨"addNodeLabels", vertexIds3, dfColumns labels3⟩], none⟩

/-- The resolved source ids of `add_edge_relationships` step 3:
`ak.find(src, vertex_map)`, `-1` for external ids not in the universe. -/
def aerSrcIds (g : PropGraph) (relationships : DataFrame) : List Int :=
  akFind ((dfGet relationships "src").getD (.ints [])).asInts g.vertex_map

/-- The resolved destination ids of `add_edge_relationships` step 3. -/
def aerDstIds (g : PropGraph) (relationships : DataFrame) : List Int :=
  akFind ((dfGet relationships "dst").getD (.ints [])).asInts g.vertex_map

/-- Step 4 of `add_edge_relationships`: surviving row positions after
the GroupBy on the resolved (src,dst) key. -/
def aerSurvivors (g : PropGraph) (relationships : DataFrame) : List Nat :=
  gbSurvivors pairLe ((aerSrcIds g relationships).zip (aerDstIds g relationships))

/-- The deduplicated resolved (src,dst) pairs of `add_edge_relationships`,
one per distinct resolved pair, in ascending lexicographic order. -/
def aerPairs (g : PropGraph) (relationships : DataFrame) : List (Int × Int) :=
  (aerSurvivors g relationships).map
    (fun i => ((aerSrcIds g relationships).getD i 0, (aerDstIds g relationships).getD i 0))

/-- `PropGraph.add_edge_relationships(relationships)`.  Step 0 is the
same inverted preliminary check as in `add_node_labels`; steps 3-5
resolve the (src,dst) pairs with `ak.find` (no `in1d` pre-filter, so
unresolved pairs become `-1` and are never dropped), deduplicate by the
resolved pair, and transmit the internal edge indices to the backend. -/
def add_edge_relationships (g : PropGraph) (relationships : DataFrame) : CallResult :=
  if (dfColumns relationships).any (fun c => (dfGet g.edge_attributes c).isNone) then
    ⟨g, relationships, [],
      some (.keyError "duplicated attribute (column) name in relationships")⟩
  else
    match dfGet relationships "src", dfGet relationships "dst" with
    | some _, some _ =>
      let rel1 := dfDrop (dfDrop relationships "src") "dst"
      let g1 := rel1.foldl (fun g2 nc => applyRelColumn g2 nc.1 nc.2) g
      let internal := akFindPairs (aerPairs g relationships) g.edges
      ⟨g1, rel1, [⟨"addEdgeRelationships", internal, dfColumns rel1⟩], none⟩
    | _, _ =>
        ⟨g, relationships, [],
          some (.keyError "attribute (column) src or dst does not exist in relationship")⟩

/-- Modelled from the spec: `DiGraph.add_edges_from` (the edge-loading
operation of §4.1, not in this repository) — the vertex universe becomes
the sorted distinct union of both endpoint columns, and the canonical
edge list the sorted distinct internal (src,dst) pairs. -/
def add_edges_from (g : PropGraph) (src dst : List Int) : PropGraph :=
  let vm := sortedDistinctBy intLe (src ++ dst)
  let ips := (src.zip dst).map
    (fun p => ((firstIdx vm p.1 : Int), (firstIdx vm p.2 : Int)))
  { g with vertex_map := vm, edges := sortedDistinctPairs ips }

/-- The dict comprehension `{col: table[col] for col in cols}`:
projection of the named columns, `KeyError` on the first absent name. -/
def buildSub (df : DataFrame) (cols : List String) : Except PyErr DataFrame :=
  cols.foldlM
    (fun acc c =>
      match dfGet df c with
      | some v => .ok (dfSet acc c v)
      | none => .error (.keyError c))
    []

/-- The filter `[col for col in columns if col not in label_columns]`.
With `None` it raises `TypeError` on the first iteration (membership is
tested against `None`); with a single string, Python's `in` is the
substring test; with a list, list membership. -/
def filterCols (columns : List String) (arg : ColsArg) : Except PyErr (List String) :=
  match arg with
  | .nothing =>
      if columns = [] then .ok []
      else .error (.typeError "argument of type NoneType is not iterable")
  | .one s => .ok (columns.filter (fun c => !(substrMem c s)))
  | .many l => .ok (columns.filter (fun c => !(decide (c ∈ l))))

/-- The tail of `load_node_attributes`: `columns.remove(node_column)`,
then resolve the key column through the store (`in1d` filter followed
by `find`) and hand the remaining columns to the backend. -/
def lnaTail (gcur : PropGraph) (origDf : DataFrame) (node_column : String)
    (nodes : Col) (ws : List BackendMsg) (cols2 : List String) : CallResult :=
  match listRemove cols2 node_column with
  | .error e => ⟨gcur, origDf, ws, some e⟩
  | .ok cols3 =>
      let nvals := nodes.asInts
      let mask := nvals.map (fun v => decide (v ∈ gcur.vertex_map))
      let vids := maskFilter nvals mask
      let internal := vids.map (fun v => (firstIdx gcur.vertex_map v : Int))
      ⟨gcur, origDf, ws ++ [⟨"addNodeProperties", internal, cols3⟩], none⟩

/-- `PropGraph.load_node_attributes(node_attributes, node_column,
label_columns)`.  The single-string label branch is guarded by
`label_columns is not None and label_columns is str` in the source — an
identity comparison against the type object `str`, false for every
actual argument — so only the list branch ever delegates to
`add_node_labels`. -/
def load_node_attributes (g : PropGraph) (node_attributes : DataFrame)
    (node_column : String) (label_columns : ColsArg) : CallResult :=
  let columns := dfColumns node_attributes
  match dfGet node_attributes node_column with
  | none => ⟨g, node_attributes, [], some (.keyError "groupby key column absent")⟩
  | some keyCol =>
    let na1 := dfSelectRows node_attributes (gbSurvivors intLe keyCol.asInts)
    let g1 := { g with node_attributes := na1 }
    let nodes := (dfGet na1 node_column).getD (.ints [])
    let cont : PropGraph → List BackendMsg → CallResult := fun gcur ws =>
      match filterCols columns label_columns with
      | .error e => ⟨gcur, node_attributes, ws, some e⟩
      | .ok cols2 => lnaTail gcur node_attributes node_column nodes ws cols2
    match label_columns with
    | .many lcols =>
        (match buildSub na1 lcols with
         | .error e => ⟨g1, node_attributes, [], some e⟩
         | .ok sub0 =>
             let r := add_node_labels g1 (dfSet sub0 "nodes" nodes)
             match r.error with
             | some e => ⟨r.graph, node_attributes, r.writes, some e⟩
             | none => cont r.graph r.writes)
    | _ => cont g1 []

/-- The tail of `load_edge_attributes`: remove the two key columns,
resolve both endpoint columns and the (src,dst) pairs with `ak.find`,
and hand the remaining columns to the backend. -/
def leaTail (gcur : PropGraph) (origDf : DataFrame)
    (source_column destination_column : String) (src dst : List Int)
    (ws : List BackendMsg) (cols2 : List String) : CallResult :=
  match listRemove cols2 source_column with
  | .error e => ⟨gcur, origDf, ws, some e⟩
  | .ok cols2a =>
    match listRemove cols2a destination_column with
    | .error e => ⟨gcur, origDf, ws, some e⟩
    | .ok cols3 =>
        let srcIdx := akFind src gcur.vertex_map
        let dstIdx := akFind dst gcur.vertex_map
        let internal := akFindPairs (srcIdx.zip dstIdx) gcur.edges
        ⟨gcur, origDf, ws ++ [⟨"addEdgeProperties", internal, cols3⟩], none⟩

/-- `PropGraph.load_edge_attributes(edge_attributes, source_column,
destination_column, relationship_columns)`.  After deduplicating by the
(src,dst) key and storing the table, the method populates the graph via
`DiGraph.add_edges_from` — this call is the edge-loading operation, so
it rebuilds the vertex universe and canonical edge list from its input.
The single-string relationship branch is dead for the same reason as in
`load_node_attributes`. -/
def load_edge_attributes (g : PropGraph) (edge_attributes : DataFrame)
    (source_column destination_column : String)
    (relationship_columns : ColsArg) : CallResult :=
  let columns := dfColumns edge_attributes
  match dfGet edge_attributes source_column, dfGet edge_attributes destination_column with
  | some sc, some dc =>
    let keys := sc.asInts.zip dc.asInts
    let df1 := dfSelectRows edge_attributes (gbSurvivors pairLe keys)
    let g1 := { g with multied := 0, edge_attributes := df1 }
    let src := ((dfGet df1 source_column).getD (.ints [])).asInts
    let dst := ((dfGet df1 destination_column).getD (.ints [])).asInts
    let g2 := add_edges_from g1 src dst
    let cont : PropGraph → List BackendMsg → CallResult := fun gcur ws =>
      match filterCols columns relationship_columns with
      | .error e => ⟨gcur, edge_attributes, ws, some e⟩
      | .ok cols2 =>
          leaTail gcur edge_attributes source_column destination_column src dst ws cols2
    match relationship_columns with
    | .many rcols =>
        (match buildSub df1 rcols with
         | .error e => ⟨g2, edge_attributes, [], some e⟩
         | .ok sub0 =>
             let sub := dfSet (dfSet sub0 "src" (.ints src)) "dst" (.ints dst)
             let r := add_edge_relationships g2 sub
             match r.error with
             | some e => ⟨r.graph, edge_attributes, r.writes, some e⟩
             | none => cont r.graph r.writes)
    | _ => cont g2 []
  | _, _ => ⟨g, edge_attributes, [], some (.keyError "groupby key column absent")⟩

/-- `PropGraph.find_paths_of_length_one(node_types, edge_types)` after
the two `ak.intx` predicate intersections: `nodesM` is the
node-predicate match set and `edgesM` the edge-predicate match list of
(src,dst) pairs in external-identifier form (`intx` itself is backend
work outside this repository).  The method keeps an edge exactly when
both endpoints are `in1d` the node match set, preserving the filter
order. -/
def find_paths_of_length_one (nodesM : List Int) (edgesM : List (Int × Int)) :
    List (Int × Int) :=
  edgesM.filter (fun e => decide (e.1 ∈ nodesM) && decide (e.2 ∈ nodesM))

/-! ### Example inputs used by the closed evaluation theorems -/

/-- A populated graph whose node attribute table already has the columns
`nodes` and `type`, so the (inverted) preliminary check lets
`add_node_labels` proceed. -/
def exGraphLbl : PropGraph :=
  { emptyPropGraph with
    vertex_map := [0, 1, 2],
    edges := [(0, 1), (0, 2), (1, 2)],
    node_attributes :=
      [("nodes", Col.ints [0, 1, 2]), ("type", Col.strs ["x", "y", "z"])] }

/-- A label table: node 5 is not in the vertex universe, node 2 repeats. -/
def exLabels : DataFrame :=
  [("nodes", Col.ints [2, 0, 2, 5]), ("type", Col.strs ["b", "a", "b", "c"])]

/-- An edge-attribute table for an empty graph (used to exhibit that
`load_edge_attributes` populates the vertex and edge sets). -/
def exEdgeDf : DataFrame :=
  [("src", Col.ints [7]), ("dst", Col.ints [3]), ("rel", Col.strs ["Buys"])]

/-- A graph with one canonical edge (0,1) whose edge attribute table
already has the columns `src`, `dst`, `rel`. -/
def exGraphRel : PropGraph :=
  { emptyPropGraph with
    vertex_map := [0, 1],
    edges := [(0, 1)],
    edge_attributes :=
      [("src", Col.ints [0]), ("dst", Col.ints [1]), ("rel", Col.strs ["a"])] }

/-- A relationship table whose second row's (src,dst) = (5,6) resolves
to no canonical edge. -/
def exRels : DataFrame :=
  [("src", Col.ints [0, 5]), ("dst", Col.ints [1, 6]), ("rel", Col.strs ["a", "b"])]

/-- A plain node-attribute table with one label column and one numeric
property column. -/
def exNodeDf : DataFrame :=
  [("nodes", Col.ints [0, 1]), ("type", Col.strs ["a", "b"]), ("age", Col.ints [5, 6])]

/-- A small populated graph with empty attribute tables. -/
def exGraphPlain : PropGraph :=
  { emptyPropGraph with vertex_map := [0, 1, 2], edges := [(0, 1)] }

/-! ### Helper lemmas about the modelled backend primitives -/

theorem firstIdx_lt_length {α : Type} [DecidableEq α] {ks : List α} {k : α}
    (h : k ∈ ks) : firstIdx ks k < ks.length := by
  induction ks with
  | nil => cases h
  | cons x xs ih =>
      by_cases hx : x = k
      · simp [firstIdx, hx]
      · have h2 : k ∈ xs := by
          rcases List.mem_cons.1 h with h1 | h1
          · exact absurd h1.symm hx
          · exact h1
        simp only [firstIdx, if_neg hx, List.length_cons]
        exact Nat.succ_lt_succ (ih h2)

theorem getD_firstIdx {α : Type} [DecidableEq α] {ks : List α} {k : α} (d : α)
    (h : k ∈ ks) : ks.getD (firstIdx ks k) d = k := by
  induction ks with
  | nil => cases h
  | cons x xs ih =>
      by_cases hx : x = k
      · simp [firstIdx, hx]
      · have h2 : k ∈ xs := by
          rcases List.mem_cons.1 h with h1 | h1
          · exact absurd h1.symm hx
          · exact h1
        simp only [firstIdx, if_neg hx, List.getD_cons_succ]
        exact ih h2

theorem firstIdx_min {α : Type} [DecidableEq α] {ks : List α} {k : α} (d : α)
    {j : Nat} (hj : j < firstIdx ks k) : ks.getD j d ≠ k := by
  induction ks generalizing j with
  | nil => simp [firstIdx] at hj
  | cons x xs ih =>
      by_cases hx : x = k
      · simp [firstIdx, hx] at hj
      · cases j with
        | zero => simpa using hx
        | succ j =>
            simp only [firstIdx, if_neg hx] at hj
            simpa using ih (Nat.lt_of_succ_lt_succ hj)

theorem firstIdx_getD_of_nodup {α : Type} [DecidableEq α] {ks : List α} (d : α)
    (hnd : ks.Nodup) {i : Nat} (hi : i < ks.length) :
    firstIdx ks (ks.getD i d) = i := by
  induction ks generalizing i with
  | nil => simp at hi
  | cons x xs ih =>
      cases i with
      | zero => simp [firstIdx]
      | succ i =>
          have hi2 : i < xs.length := Nat.lt_of_succ_lt_succ (by simpa using hi)
          have hmem : xs.getD i d ∈ xs := by
            rw [List.getD_eq_getElem _ _ hi2]
            exact List.getElem_mem _
          have hx : ¬ x = xs.getD i d := fun h =>
            (List.nodup_cons.1 hnd).1 (h ▸ hmem)
          simp only [firstIdx, List.getD_cons_succ, if_neg hx]
          rw [ih (List.nodup_cons.1 hnd).2 hi2]

theorem sortedDistinctBy_perm {α : Type} [DecidableEq α] (le : α → α → Bool)
    (xs : List α) : List.Perm (sortedDistinctBy le xs) xs.dedup :=
  List.perm_insertionSort _ _

theorem mem_sortedDistinctBy {α : Type} [DecidableEq α] {le : α → α → Bool}
    {xs : List α} {a : α} : a ∈ sortedDistinctBy le xs ↔ a ∈ xs := by
  rw [(sortedDistinctBy_perm le xs).mem_iff, List.mem_dedup]

theorem sortedDistinctBy_nodup {α : Type} [DecidableEq α] (le : α → α → Bool)
    (xs : List α) : (sortedDistinctBy le xs).Nodup :=
  ((sortedDistinctBy_perm le xs).nodup_iff).2 (List.nodup_dedup xs)

theorem sortedDistinctBy_sorted {α : Type} [DecidableEq α] (le : α → α → Bool)
    (htot : ∀ a b, le a b = true ∨ le b a = true)
    (htrans : ∀ a b c, le a b = true → le b c = true → le a c = true)
    (xs : List α) :
    List.Sorted (fun a b => le a b = true) (sortedDistinctBy le xs) := by
  have i1 : IsTotal α (fun a b => le a b = true) := ⟨htot⟩
  have i2 : IsTrans α (fun a b => le a b = true) := ⟨fun a b c => htrans a b c⟩
  exact List.sorted_insertionSort _ _

theorem sortedDistinctBy_length {α : Type} [DecidableEq α] (le : α → α → Bool)
    (xs : List α) : (sortedDistinctBy le xs).length = xs.dedup.length :=
  (sortedDistinctBy_perm le xs).length_eq

theorem firstIdx_lt_of_sorted {α : Type} [DecidableEq α] {r : α → α → Prop}
    {l : List α} (hs : List.Sorted r l)
    (hanti : ∀ a b, r a b → r b a → a = b) {a b : α}
    (ha : a ∈ l) (hb : b ∈ l) (hab : r a b) (hne : a ≠ b) :
    firstIdx l a < firstIdx l b := by
  have hia : firstIdx l a < l.length := firstIdx_lt_length ha
  have hib : firstIdx l b < l.length := firstIdx_lt_length hb
  by_contra hle
  push_neg at hle
  rcases Nat.eq_or_lt_of_le hle with heq | hlt
  · have h1 : l.getD (firstIdx l a) a = a := getD_firstIdx a ha
    have h2 : l.getD (firstIdx l b) a = b := getD_firstIdx a hb
    rw [heq, h1] at h2
    exact hne h2
  · have hrel := hs.rel_get_of_lt
      (a := ⟨firstIdx l b, hib⟩) (b := ⟨firstIdx l a, hia⟩) (Fin.mk_lt_mk.2 hlt)
    have h1 : l.get ⟨firstIdx l a, hia⟩ = a := by
      rw [List.get_eq_getElem, ← List.getD_eq_getElem _ a hia]
      exact getD_firstIdx a ha
    have h2 : l.get ⟨firstIdx l b, hib⟩ = b := by
      rw [List.get_eq_getElem, ← List.getD_eq_getElem _ a hib]
      exact getD_firstIdx a hb
    rw [h1, h2] at hrel
    exact hne (hanti a b hab hrel)

theorem intLe_total (a b : Int) : intLe a b = true ∨ intLe b a = true := by
  simp only [intLe, decide_eq_true_eq]
  omega

theorem intLe_trans (a b c : Int) :
    intLe a b = true → intLe b c = true → intLe a c = true := by
  simp only [intLe, decide_eq_true_eq]
  omega

theorem pairLe_total (p q : Int × Int) : pairLe p q = true ∨ pairLe q p = true := by
  simp only [pairLe]
  split_ifs <;> simp_all [decide_eq_true_eq] <;> omega

theorem pairLe_trans (p q r : Int × Int) :
    pairLe p q = true → pairLe q r = true → pairLe p r = true := by
  simp only [pairLe]
  split_ifs <;> simp_all [decide_eq_true_eq] <;> omega

theorem charsLe_total (as : List Char) : ∀ bs, charsLe as bs = true ∨ charsLe bs as = true := by
  induction as with
  | nil => intro bs; left; rfl
  | cons a as ih =>
      intro bs
      cases bs with
      | nil => right; rfl
      | cons b bs =>
          by_cases hab : a = b
          · subst hab
            rcases ih bs with h | h
            · left; simpa [charsLe] using h
            · right; simpa [charsLe] using h
          · rcases lt_or_gt_of_ne hab with h | h
            · left; simp [charsLe, hab, h]
            · right
              have hba : ¬ b = a := fun hh => hab hh.symm
              simp [charsLe, hba, h]

theorem charsLe_trans (as : List Char) :
    ∀ bs cs, charsLe as bs = true → charsLe bs cs = true → charsLe as cs = true := by
  induction as with
  | nil => intro bs cs h1 h2; rfl
  | cons a as ih =>
      intro bs cs h1 h2
      cases bs with
      | nil => simp [charsLe] at h1
      | cons b bs =>
          cases cs with
          | nil => simp [charsLe] at h2
          | cons c cs =>
              by_cases hab : a = b <;> by_cases hbc : b = c
              · subst hab; subst hbc
                simp only [charsLe, if_pos rfl] at h1 h2 ⊢
                exact ih bs cs h1 h2
              · simp only [charsLe, if_pos hab] at h1
                simp only [charsLe, if_neg hbc, decide_eq_true_eq] at h2
                have hac : ¬ a = c := by rw [hab]; exact hbc
                have hlt : a < c := by rw [hab]; exact h2
                simp [charsLe, hac, hlt]
              · simp only [charsLe, if_neg hab, decide_eq_true_eq] at h1
                have hac : ¬ a = c := by rw [← hbc]; exact hab
                have hlt : a < c := by rw [← hbc]; exact h1
                simp [charsLe, hac, hlt]
              · simp only [charsLe, if_neg hab, decide_eq_true_eq] at h1
                simp only [charsLe, if_neg hbc, decide_eq_true_eq] at h2
                have hac : a < c := lt_trans h1 h2
                simp [charsLe, ne_of_lt hac, hac]

theorem charsLe_antisymm (as : List Char) :
    ∀ bs, charsLe as bs = true → charsLe bs as = true → as = bs := by
  induction as with
  | nil =>
      intro bs h1 h2
      cases bs with
      | nil => rfl
      | cons b bs => simp [charsLe] at h2
  | cons a as ih =>
      intro bs h1 h2
      cases bs with
      | nil => simp [charsLe] at h1
      | cons b bs =>
          by_cases hab : a = b
          · subst hab
            simp only [charsLe, if_pos rfl] at h1 h2
            rw [ih bs h1 h2]
          · simp only [charsLe, if_neg hab, decide_eq_true_eq] at h1
            have hba : ¬ b = a := fun hh => hab hh.symm
            simp only [charsLe, if_neg hba, decide_eq_true_eq] at h2
            exact absurd h2 (not_lt.2 (le_of_lt h1))

theorem strLe_total (a b : String) : strLe a b = true ∨ strLe b a = true :=
  charsLe_total a.data b.data

theorem strLe_trans (a b c : String) :
    strLe a b = true → strLe b c = true → strLe a c = true :=
  charsLe_trans a.data b.data c.data

theorem strLe_antisymm (a b : String) :
    strLe a b = true → strLe b a = true → a = b := by
  intro h1 h2
  cases a with
  | mk da =>
      cases b with
      | mk db =>
          exact congrArg String.mk (charsLe_antisymm da db h1 h2)

/-! ### Helper lemmas about the embedded methods -/

theorem applyLabelColumn_topology (g : PropGraph) (n : String) (c : Col) :
    (applyLabelColumn g n c).vertex_map = g.vertex_map ∧
    (applyLabelColumn g n c).edges = g.edges := by
  cases c <;> simp [applyLabelColumn]

theorem applyRelColumn_topology (g : PropGraph) (n : String) (c : Col) :
    (applyRelColumn g n c).vertex_map = g.vertex_map ∧
    (applyRelColumn g n c).edges = g.edges := by
  cases c <;> simp [applyRelColumn]

theorem foldl_label_topology (cols : List (String × Col)) (g : PropGraph) :
    (cols.foldl (fun g2 nc => applyLabelColumn g2 nc.1 nc.2) g).vertex_map = g.vertex_map ∧
    (cols.foldl (fun g2 nc => applyLabelColumn g2 nc.1 nc.2) g).edges = g.edges := by
  induction cols generalizing g with
  | nil => exact ⟨rfl, rfl⟩
  | cons hd tl ih =>
      simp only [List.foldl_cons]
      have h1 := applyLabelColumn_topology g hd.1 hd.2
      have h2 := ih (applyLabelColumn g hd.1 hd.2)
      exact ⟨h2.1.trans h1.1, h2.2.trans h1.2⟩

theorem foldl_rel_topology (cols : List (String × Col)) (g : PropGraph) :
    (cols.foldl (fun g2 nc => applyRelColumn g2 nc.1 nc.2) g).vertex_map = g.vertex_map ∧
    (cols.foldl (fun g2 nc => applyRelColumn g2 nc.1 nc.2) g).edges = g.edges := by
  induction cols generalizing g with
  | nil => exact ⟨rfl, rfl⟩
  | cons hd tl ih =>
      simp only [List.foldl_cons]
      have h1 := applyRelColumn_topology g hd.1 hd.2
      have h2 := ih (applyRelColumn g hd.1 hd.2)
      exact ⟨h2.1.trans h1.1, h2.2.trans h1.2⟩

theorem add_node_labels_topology (g : PropGraph) (l : DataFrame) :
    (add_node_labels g l).graph.vertex_map = g.vertex_map ∧
    (add_node_labels g l).graph.edges = g.edges := by
  unfold add_node_labels
  split
  · exact ⟨rfl, rfl⟩
  · split
    · exact ⟨rfl, rfl⟩
    · exact foldl_label_topology _ g

theorem add_edge_relationships_topology (g : PropGraph) (l : DataFrame) :
    (add_edge_relationships g l).graph.vertex_map = g.vertex_map ∧
    (add_edge_relationships g l).graph.edges = g.edges := by
  unfold add_edge_relationships
  split
  · exact ⟨rfl, rfl⟩
  · split
    · exact foldl_rel_topology _ g
    · exact ⟨rfl, rfl⟩

theorem lnaTail_graph (gcur : PropGraph) (odf : DataFrame) (ncol : String)
    (nodes : Col) (ws : List BackendMsg) (cols2 : List String) :
    (lnaTail gcur odf ncol nodes ws cols2).graph = gcur := by
  unfold lnaTail
  split <;> rfl

theorem leaTail_graph (gcur : PropGraph) (odf : DataFrame) (scol dcol : String)
    (src dst : List Int) (ws : List BackendMsg) (cols2 : List String) :
    (leaTail gcur odf scol dcol src dst ws cols2).graph = gcur := by
  unfold leaTail
  split
  · rfl
  · split <;> rfl

theorem load_node_attributes_topology (g : PropGraph) (na : DataFrame)
    (ncol : String) (lc : ColsArg) :
    (load_node_attributes g na ncol lc).graph.vertex_map = g.vertex_map ∧
    (load_node_attributes g na ncol lc).graph.edges = g.edges := by
  simp only [load_node_attributes]
  split
  · exact ⟨rfl, rfl⟩
  · split
    · -- list branch
      split
      · exact ⟨rfl, rfl⟩
      · split
        · exact add_node_labels_topology _ _
        · split
          · exact add_node_labels_topology _ _
          · rw [lnaTail_graph]
            exact add_node_labels_topology _ _
    · -- other branches: cont g1 []
      split
      · exact ⟨rfl, rfl⟩
      · rw [lnaTail_graph]
        exact ⟨rfl, rfl⟩

theorem dfGet_mem {df : DataFrame} {n : String} {c : Col}
    (h : dfGet df n = some c) : (n, c) ∈ df := by
  induction df with
  | nil => simp [dfGet] at h
  | cons hd tl ih =>
      obtain ⟨n0, c0⟩ := hd
      by_cases hn : n0 = n
      · subst hn
        simp [dfGet] at h
        subst h
        exact List.mem_cons_self _ _
      · simp only [dfGet, if_neg hn] at h
        exact List.mem_cons_of_mem _ (ih h)

theorem dfGet_mem_columns {df : DataFrame} {n : String} {c : Col}
    (h : dfGet df n = some c) : n ∈ dfColumns df := by
  have := dfGet_mem h
  exact List.mem_map_of_mem Prod.fst this

theorem length_filter_lt {α : Type} (p : α → Bool) {l : List α} {x : α}
    (hx : x ∈ l) (hpx : p x = false) : (l.filter p).length < l.length := by
  induction l with
  | nil => cases hx
  | cons y ys ih =>
      rcases List.mem_cons.1 hx with h1 | h1
      · subst h1
        rw [List.filter_cons, if_neg (by simp [hpx])]
        exact Nat.lt_succ_of_le (List.length_filter_le p ys)
      · by_cases hy : p y
        · rw [List.filter_cons, if_pos (by simp [hy])]
          exact Nat.succ_lt_succ (ih h1)
        · rw [List.filter_cons, if_neg (by simpa using hy)]
          exact Nat.lt_succ_of_lt (ih h1)

theorem gbSurvivors_spec {α : Type} [DecidableEq α] (le : α → α → Bool)
    (ks : List α) (d : α) :
    (gbSurvivors le ks).length = ks.dedup.length ∧
    (gbSurvivors le ks).map (fun i => ks.getD i d) = sortedDistinctBy le ks ∧
    (∀ i ∈ gbSurvivors le ks, i < ks.length ∧
      ∀ j, j < i → ks.getD j d ≠ ks.getD i d) := by
  refine ⟨?_, ?_, ?_⟩
  · rw [gbSurvivors, List.length_map, sortedDistinctBy_length]
  · rw [gbSurvivors, List.map_map]
    have hpt : ∀ k ∈ sortedDistinctBy le ks,
        ((fun i => ks.getD i d) ∘ fun k => firstIdx ks k) k = id k := by
      intro k hk
      exact getD_firstIdx d (mem_sortedDistinctBy.1 hk)
    rw [List.map_congr_left hpt, List.map_id]
  · intro i hi
    rcases List.mem_map.1 hi with ⟨k, hk, rfl⟩
    have hkm : k ∈ ks := mem_sortedDistinctBy.1 hk
    refine ⟨firstIdx_lt_length hkm, ?_⟩
    intro j hj
    rw [getD_firstIdx d hkm]
    exact firstIdx_min d hj

/-! ### Claim theorems -/

/-- C1: the preliminary name check of `add_node_labels` is inverted in
the code.  On a fresh graph whose node attribute table has no columns at
all — so no input column name collides — the call raises the
name-collision `KeyError`; conversely, when every input column name
(including `type`) is already present in the node attribute table — an
actual collision — the check passes and the load proceeds to completion.
This is evidence for the code bug: the source's own comment says the
check ensures the names "do not already exist", but the comprehension
`[self.node_attributes[col] for col in labels.columns]` raises exactly
when a name does not exist. -/
theorem claim1_name_check_inverted :
    ((add_node_labels emptyPropGraph exLabels).error =
        some (.keyError "duplicated attribute (column) name in labels") ∧
      dfColumns exLabels = ["nodes", "type"] ∧
      dfGet emptyPropGraph.node_attributes "nodes" = none ∧
      dfGet emptyPropGraph.node_attributes "type" = none) ∧
    ((add_node_labels exGraphLbl exLabels).error = none ∧
      "type" ∈ dfColumns exGraphLbl.node_attributes ∧
      "type" ∈ dfColumns exLabels) := by
  exact ⟨⟨rfl, rfl, rfl, rfl⟩, ⟨rfl, by decide, by decide⟩⟩

/-- C2 counterexample: `load_edge_attributes` does change the graph's
vertex and edge sets — it is the call that populates them (the source
comment reads "Populate the graph object with edges").  A fully
successful load on an empty graph takes the vertex universe from `[]`
to `[3, 7]` and the canonical edge list from `[]` to `[(1, 0)]`. -/
theorem claim2_counterexample :
    (load_edge_attributes emptyPropGraph exEdgeDf "src" "dst"
        (ColsArg.many ["rel"])).error = none ∧
    emptyPropGraph.vertex_map = [] ∧ emptyPropGraph.edges = [] ∧
    (load_edge_attributes emptyPropGraph exEdgeDf "src" "dst"
        (ColsArg.many ["rel"])).graph.vertex_map = [3, 7] ∧
    (load_edge_attributes emptyPropGraph exEdgeDf "src" "dst"
        (ColsArg.many ["rel"])).graph.edges = [(1, 0)] := by
  exact ⟨rfl, rfl, rfl, rfl, rfl⟩

/-- C2 (amended): `add_node_labels`, `add_edge_relationships` and
`load_node_attributes` leave the graph's vertex set and edge set
unchanged — attribute rows only annotate identifiers already present
and unresolved rows are dropped rather than creating vertices or edges —
but `load_edge_attributes` is excluded: it populates both sets from its
input's key columns via `add_edges_from`. -/
theorem claim2_attribute_loads_preserve_topology (g : PropGraph)
    (labels rel na : DataFrame) (ncol : String) (lc : ColsArg) :
    ((add_node_labels g labels).graph.vertex_map = g.vertex_map ∧
      (add_node_labels g labels).graph.edges = g.edges) ∧
    ((add_edge_relationships g rel).graph.vertex_map = g.vertex_map ∧
      (add_edge_relationships g rel).graph.edges = g.edges) ∧
    ((load_node_attributes g na ncol lc).graph.vertex_map = g.vertex_map ∧
      (load_node_attributes g na ncol lc).graph.edges = g.edges) :=
  ⟨add_node_labels_topology g labels, add_edge_relationships_topology g rel,
    load_node_attributes_topology g na ncol lc⟩

/-- C6: an edge `(u, v)` appears in the output of
`find_paths_of_length_one` exactly when `(u, v)` is in the
edge-predicate match list and both `u` and `v` are in the
node-predicate match set; the output is a sublist of the edge match
list, so the filter order is preserved and the pairs remain in
external-identifier form. -/
theorem claim6_paths_of_length_one (nodesM : List Int) (edgesM : List (Int × Int)) :
    (∀ u v : Int,
      (u, v) ∈ find_paths_of_length_one nodesM edgesM ↔
        ((u, v) ∈ edgesM ∧ u ∈ nodesM ∧ v ∈ nodesM)) ∧
    (find_paths_of_length_one nodesM edgesM).Sublist edgesM := by
  constructor
  · intro u v
    simp [find_paths_of_length_one, List.mem_filter, and_assoc]
  · exact List.filter_sublist _

/-- C7: evidence for the code bug in the single-name case.  With
`label_columns` given as the single string `"type"`, the branch guarded
by `label_columns is str` (an identity comparison with the type object,
false for every actual string) never runs: no sub-table is projected,
`add_node_labels` is never delegated to (no `addNodeLabels` backend
write, label mapper untouched), and the call completes as a plain
property load.  With the same column designated as the list
`["type"]`, the delegation does happen: an `addNodeLabels` write
precedes the `addNodeProperties` write and the mapper gains the
dictionary for `type`. -/
theorem claim7_single_name_not_delegated :
    ((load_node_attributes exGraphPlain exNodeDf "nodes" (ColsArg.one "type")).error = none ∧
      (load_node_attributes exGraphPlain exNodeDf "nodes"
          (ColsArg.one "type")).writes.map BackendMsg.cmd = ["addNodeProperties"] ∧
      (load_node_attributes exGraphPlain exNodeDf "nodes"
          (ColsArg.one "type")).graph.label_mapper = exGraphPlain.label_mapper) ∧
    ((load_node_attributes exGraphPlain exNodeDf "nodes" (ColsArg.many ["type"])).error = none ∧
      (load_node_attributes exGraphPlain exNodeDf "nodes"
          (ColsArg.many ["type"])).writes.map BackendMsg.cmd =
        ["addNodeLabels", "addNodeProperties"] ∧
      (load_node_attributes exGraphPlain exNodeDf "nodes"
          (ColsArg.many ["type"])).graph.label_mapper = [("type", Col.strs ["a", "b"])]) := by
  exact ⟨⟨rfl, rfl, rfl⟩, ⟨rfl, rfl, rfl⟩⟩

/-- C3: deduplication in the loaders keeps exactly one row per distinct
key.  For the modelled sort-and-group composite `gbSurvivors` on either
an integer key column (`load_node_attributes`) or a (src,dst) key pair
(`load_edge_attributes`): the number of surviving rows equals the
number of distinct keys, the surviving rows carry the distinct keys in
ascending sorted order, and each surviving row is the first row of its
key (every earlier row has a different key) — the remaining rows are
discarded silently.  The last two conjuncts tie the model to the code:
the stored attribute table of each load is exactly the input table
restricted to the surviving rows. -/
theorem claim3_dedup_one_row_per_key :
    (∀ ks : List Int,
      (gbSurvivors intLe ks).length = ks.dedup.length ∧
      (gbSurvivors intLe ks).map (fun i => ks.getD i 0) = sortedDistinctBy intLe ks ∧
      List.Sorted (fun a b => intLe a b = true) (sortedDistinctBy intLe ks) ∧
      (∀ i ∈ gbSurvivors intLe ks, i < ks.length ∧
        ∀ j, j < i → ks.getD j 0 ≠ ks.getD i 0)) ∧
    (∀ ks : List (Int × Int),
      (gbSurvivors pairLe ks).length = ks.dedup.length ∧
      (gbSurvivors pairLe ks).map (fun i => ks.getD i (0, 0)) = sortedDistinctBy pairLe ks ∧
      List.Sorted (fun a b => pairLe a b = true) (sortedDistinctBy pairLe ks) ∧
      (∀ i ∈ gbSurvivors pairLe ks, i < ks.length ∧
        ∀ j, j < i → ks.getD j (0, 0) ≠ ks.getD i (0, 0))) ∧
    (∀ (g : PropGraph) (df : DataFrame) (ncol : String) (kc : Col),
      dfGet df ncol = some kc →
      (load_node_attributes g df ncol ColsArg.nothing).graph.node_attributes =
        dfSelectRows df (gbSurvivors intLe kc.asInts)) ∧
    (∀ (g : PropGraph) (df : DataFrame) (scol dcol : String) (sc dc : Col),
      dfGet df scol = some sc → dfGet df dcol = some dc →
      (load_edge_attributes g df scol dcol ColsArg.nothing).graph.edge_attributes =
        dfSelectRows df (gbSurvivors pairLe (sc.asInts.zip dc.asInts))) := by
  refine ⟨?_, ?_, ?_, ?_⟩
  · intro ks
    have h := gbSurvivors_spec intLe ks 0
    exact ⟨h.1, h.2.1, sortedDistinctBy_sorted intLe intLe_total intLe_trans ks, h.2.2⟩
  · intro ks
    have h := gbSurvivors_spec pairLe ks (0, 0)
    exact ⟨h.1, h.2.1, sortedDistinctBy_sorted pairLe pairLe_total pairLe_trans ks, h.2.2⟩
  · intro g df ncol kc h
    simp only [load_node_attributes, h]
    split
    · rfl
    · rw [lnaTail_graph]
  · intro g df scol dcol sc dc hs hd
    simp only [load_edge_attributes, hs, hd]
    split
    · rfl
    · rw [leaTail_graph]
      rfl

/-- C3 witness: the node-load conjunct of the claim theorem evaluated on
a concrete table with a duplicate node key. -/
theorem claim3_witness :
    dfGet exLabels "nodes" = some (Col.ints [2, 0, 2, 5]) ∧
    (load_node_attributes exGraphLbl exLabels "nodes" ColsArg.nothing).graph.node_attributes =
      dfSelectRows exLabels (gbSurvivors intLe (Col.ints [2, 0, 2, 5]).asInts) :=
  ⟨by rfl,
    claim3_dedup_one_row_per_key.2.2.1 exGraphLbl exLabels "nodes"
      (Col.ints [2, 0, 2, 5]) (by rfl)⟩

/-- C4: dictionary encoding of a textual label/relationship column.  For
the codes and dictionary produced by `encodeColumn`: the dictionary has
one entry per distinct value; every code is below the distinct count;
every code in `[0, k)` is hit, so the codes form exactly that
contiguous range; the dictionary entry at each row's code reconstructs
that row's original value; and codes are assigned in ascending sorted
order of the distinct values.  The remaining conjuncts tie the encoding
to the program: a textual column updates the mapper with the dictionary
and overwrites the attribute column with the codes, while a non-textual
column is left unencoded with the one-value placeholder dictionary
`[" "]`. -/
theorem claim4_dictionary_encoding :
    (∀ vals : List String,
      ((encodeColumn vals).2).length = vals.dedup.length ∧
      (∀ c ∈ (encodeColumn vals).1, c < (encodeColumn vals).2.length) ∧
      (∀ c, c < (encodeColumn vals).2.length → c ∈ (encodeColumn vals).1) ∧
      (∀ i, i < vals.length →
        (encodeColumn vals).2.getD ((encodeColumn vals).1.getD i 0) "" = vals.getD i "") ∧
      (∀ v ∈ vals, ∀ w ∈ vals, strLe v w = true → v ≠ w →
        firstIdx (encodeColumn vals).2 v < firstIdx (encodeColumn vals).2 w)) ∧
    (∀ (g : PropGraph) (name : String) (vals : List String),
      applyLabelColumn g name (.strs vals) =
        { g with
          label_mapper := dfSet g.label_mapper name (.strs (encodeColumn vals).2),
          node_attributes := dfSet g.node_attributes name
            (.ints ((encodeColumn vals).1.map Int.ofNat)) }) ∧
    (∀ (g : PropGraph) (name : String) (xs : List Int),
      applyLabelColumn g name (.ints xs) =
        { g with label_mapper := dfSet g.label_mapper name (.strs [" "]) } ∧
      (Col.strs [" "]).length = 1) ∧
    (∀ (g : PropGraph) (name : String) (vals : List String),
      applyRelColumn g name (.strs vals) =
        { g with
          relationship_mapper := dfSet g.relationship_mapper name (.strs (encodeColumn vals).2),
          edge_attributes := dfSet g.edge_attributes name
            (.ints ((encodeColumn vals).1.map Int.ofNat)) }) ∧
    (∀ (g : PropGraph) (name : String) (xs : List Int),
      applyRelColumn g name (.ints xs) =
        { g with relationship_mapper := dfSet g.relationship_mapper name (.strs [" "]) }) := by
  refine ⟨?_, fun g name vals => rfl, fun g name xs => ⟨rfl, rfl⟩,
    fun g name vals => rfl, fun g name xs => rfl⟩
  intro vals
  refine ⟨?_, ?_, ?_, ?_, ?_⟩
  · exact sortedDistinctBy_length strLe vals
  · intro c hc
    rcases List.mem_map.1 hc with ⟨v, hv, rfl⟩
    exact firstIdx_lt_length (mem_sortedDistinctBy.2 hv)
  · intro c hc
    have hmem : (encodeColumn vals).2.getD c "" ∈ (encodeColumn vals).2 := by
      rw [List.getD_eq_getElem _ _ hc]
      exact List.getElem_mem _
    have hv : (encodeColumn vals).2.getD c "" ∈ vals := mem_sortedDistinctBy.1 hmem
    refine List.mem_map.2 ⟨(encodeColumn vals).2.getD c "", hv, ?_⟩
    exact firstIdx_getD_of_nodup "" (sortedDistinctBy_nodup strLe vals) hc
  · intro i hi
    have hlen : i < ((encodeColumn vals).1).length := by
      simpa [encodeColumn] using hi
    rw [List.getD_eq_getElem _ _ hlen]
    have hval : ((encodeColumn vals).1).get ⟨i, hlen⟩ =
        firstIdx (encodeColumn vals).2 (vals.getD i "") := by
      simp only [encodeColumn, List.get_eq_getElem, List.getElem_map]
      rw [← List.getD_eq_getElem _ "" hi]
    rw [List.get_eq_getElem] at hval
    rw [hval]
    have hm : vals.getD i "" ∈ vals := by
      rw [List.getD_eq_getElem _ _ hi]
      exact List.getElem_mem _
    exact getD_firstIdx "" (mem_sortedDistinctBy.2 hm)
  · intro v hv w hw hle hne
    exact firstIdx_lt_of_sorted
      (sortedDistinctBy_sorted strLe strLe_total strLe_trans vals)
      strLe_antisymm (mem_sortedDistinctBy.2 hv) (mem_sortedDistinctBy.2 hw) hle hne

/-- C4 witness: the ascending-code conjunct of the claim theorem on the
concrete column `["b", "a"]`. -/
theorem claim4_witness :
    strLe "a" "b" = true ∧
    firstIdx (encodeColumn ["b", "a"]).2 "a" < firstIdx (encodeColumn ["b", "a"]).2 "b" :=
  ⟨by rfl,
    (claim4_dictionary_encoding.1 ["b", "a"]).2.2.2.2 "a" (by decide) "b" (by decide)
      (by rfl) (by decide)⟩

/-- C5 counterexample: `add_edge_relationships` does not drop rows whose
(src,dst) fails to resolve to an existing edge.  On a graph whose only
canonical edge is (0,1), a relationship table with rows keyed (0,1) and
(5,6) completes without error and transmits BOTH deduplicated rows to
the backend; the unresolved row's resolved pair is (-1,-1), which is
not a canonical edge, and its transmitted internal index is -1. -/
theorem claim5_counterexample :
    (add_edge_relationships exGraphRel exRels).error = none ∧
    (add_edge_relationships exGraphRel exRels).writes =
      [⟨"addEdgeRelationships", [-1, 0], ["rel"]⟩] ∧
    aerPairs exGraphRel exRels = [(-1, -1), (0, 1)] ∧
    ((-1, -1) : Int × Int) ∉ exGraphRel.edges :=
  ⟨rfl, rfl, rfl, by decide⟩

/-- C5 (amended): rows whose (src,dst) pair does not resolve to an
existing edge are NOT dropped before the backend write.  Every
successful call transmits the full deduplicated row set: the
transmitted internal index of a row is -1 exactly when its resolved
pair is not in the canonical edge list, and otherwise is a valid
position `k` with `edges[k]` equal to the resolved pair. -/
theorem claim5_unresolved_rows_not_dropped :
    (∀ (g : PropGraph) (rel : DataFrame),
      (add_edge_relationships g rel).error = none →
      (add_edge_relationships g rel).writes =
        [⟨"addEdgeRelationships", akFindPairs (aerPairs g rel) g.edges,
          dfColumns (dfDrop (dfDrop rel "src") "dst")⟩]) ∧
    (∀ (q space : List (Int × Int)) (i : Nat) (d : Int × Int), i < q.length →
      ((akFindPairs q space).getD i 0 = -1 ∧ q.getD i d ∉ space) ∨
      (∃ k : Nat, (akFindPairs q space).getD i 0 = (k : Int) ∧ k < space.length ∧
        space.getD k d = q.getD i d)) := by
  constructor
  · intro g rel
    simp only [add_edge_relationships]
    split
    · intro h
      exact Option.noConfusion h
    · split
      · intro _
        rfl
      · intro h
        exact Option.noConfusion h
  · intro q space i d hi
    have hlen : i < (akFindPairs q space).length := by
      simpa [akFindPairs] using hi
    have hval : (akFindPairs q space).getD i 0 =
        if q.getD i d ∈ space then (firstIdx space (q.getD i d) : Int) else -1 := by
      rw [List.getD_eq_getElem _ _ hlen]
      simp only [akFindPairs, List.getElem_map]
      rw [← List.getD_eq_getElem _ d hi]
    by_cases hmem : q.getD i d ∈ space
    · right
      refine ⟨firstIdx space (q.getD i d), ?_, firstIdx_lt_length hmem, getD_firstIdx d hmem⟩
      rw [hval, if_pos hmem]
    · left
      rw [hval, if_neg hmem]
      exact ⟨rfl, hmem⟩

/-- C5 witness: the write-shape conjunct of the amended theorem on the
concrete graph and table of the counterexample. -/
theorem claim5_witness :
    (add_edge_relationships exGraphRel exRels).writes =
      [⟨"addEdgeRelationships", akFindPairs (aerPairs exGraphRel exRels) exGraphRel.edges,
        dfColumns (dfDrop (dfDrop exRels "src") "dst")⟩] :=
  claim5_unresolved_rows_not_dropped.1 exGraphRel exRels rfl

/-- C8: whenever `add_node_labels` or `add_edge_relationships` raises an
exception (the only raise sites are the two structural checks: the
preliminary column-name check and the missing key column check), the
error is raised before any backend write and before any mutation of the
graph state or of the caller's table: the result carries the unchanged
graph, an empty write list, and the untouched input dataframe. -/
theorem claim8_structural_errors_abort_first (g g2 : PropGraph)
    (labels rel : DataFrame) :
    ((add_node_labels g labels).error.isSome = true →
      (add_node_labels g labels).graph = g ∧
      (add_node_labels g labels).writes = [] ∧
      (add_node_labels g labels).callerDf = labels) ∧
    ((add_edge_relationships g2 rel).error.isSome = true →
      (add_edge_relationships g2 rel).graph = g2 ∧
      (add_edge_relationships g2 rel).writes = [] ∧
      (add_edge_relationships g2 rel).callerDf = rel) := by
  constructor
  · simp only [add_node_labels]
    split
    · exact fun _ => ⟨rfl, rfl, rfl⟩
    · split
      · exact fun _ => ⟨rfl, rfl, rfl⟩
      · intro h
        simp at h
  · simp only [add_edge_relationships]
    split
    · exact fun _ => ⟨rfl, rfl, rfl⟩
    · split
      · intro h
        simp at h
      · exact fun _ => ⟨rfl, rfl, rfl⟩

/-- C8 witness: both structural-failure conjuncts evaluated on concrete
failing inputs (a fresh graph whose attribute tables lack the input
columns, so the inverted preliminary check raises). -/
theorem claim8_witness :
    (add_node_labels emptyPropGraph exLabels).error.isSome = true ∧
    (add_node_labels emptyPropGraph exLabels).graph = emptyPropGraph ∧
    (add_node_labels emptyPropGraph exLabels).writes = [] ∧
    (add_node_labels emptyPropGraph exLabels).callerDf = exLabels ∧
    (add_edge_relationships emptyPropGraph exRels).error.isSome = true ∧
    (add_edge_relationships emptyPropGraph exRels).graph = emptyPropGraph := by
  have h := claim8_structural_errors_abort_first emptyPropGraph emptyPropGraph exLabels exRels
  have h1 := h.1 (by rfl)
  have h2 := h.2 (by rfl)
  exact ⟨by rfl, h1.1, h1.2.1, h1.2.2, by rfl, h2.1⟩

/-- C9: with `label_columns` left as `None` (the default), every
`load_node_attributes` call whose key column exists raises `TypeError`
at the remaining-column filter — membership is tested against `None` —
and no backend write is ever issued; likewise for
`load_edge_attributes` with `relationship_columns = None`.  A plain
property load with no categorical columns designated therefore never
reaches the backend handoff. -/
theorem claim9_none_default_raises_typeerror (g g2 : PropGraph)
    (df df2 : DataFrame) (ncol scol dcol : String) (kc sc dc : Col) :
    (dfGet df ncol = some kc →
      (load_node_attributes g df ncol ColsArg.nothing).error =
        some (.typeError "argument of type NoneType is not iterable") ∧
      (load_node_attributes g df ncol ColsArg.nothing).writes = []) ∧
    (dfGet df2 scol = some sc → dfGet df2 dcol = some dc →
      (load_edge_attributes g2 df2 scol dcol ColsArg.nothing).error =
        some (.typeError "argument of type NoneType is not iterable") ∧
      (load_edge_attributes g2 df2 scol dcol ColsArg.nothing).writes = []) := by
  constructor
  · intro h
    have hne : dfColumns df ≠ [] := List.ne_nil_of_mem (dfGet_mem_columns h)
    simp only [load_node_attributes, h, filterCols, if_neg hne]
    exact ⟨trivial, trivial⟩
  · intro hs hd
    have hne : dfColumns df2 ≠ [] := List.ne_nil_of_mem (dfGet_mem_columns hs)
    simp only [load_edge_attributes, hs, hd, filterCols, if_neg hne]
    exact ⟨trivial, trivial⟩

/-- C9 witness: both conjuncts evaluated on concrete tables. -/
theorem claim9_witness :
    dfGet exNodeDf "nodes" = some (Col.ints [0, 1]) ∧
    (load_node_attributes exGraphPlain exNodeDf "nodes" ColsArg.nothing).error =
      some (.typeError "argument of type NoneType is not iterable") ∧
    (load_edge_attributes exGraphPlain exEdgeDf "src" "dst" ColsArg.nothing).writes = [] := by
  have h := claim9_none_default_raises_typeerror exGraphPlain exGraphPlain
    exNodeDf exEdgeDf "nodes" "src" "dst" (Col.ints [0, 1])
    (Col.ints [7]) (Col.ints [3])
  exact ⟨by rfl, (h.1 (by rfl)).1, (h.2 (by rfl) (by rfl)).2⟩

/-- C10: `add_node_labels` and `add_edge_relationships` mutate the
caller's dataframe in place.  On every call that completes without
error, the caller-visible table afterwards is the input with the key
column(s) dropped (`nodes`, respectively `src` and `dst`), and it has
strictly fewer columns than the input — the input table is not
preserved across the call. -/
theorem claim10_key_columns_dropped_in_place (g g2 : PropGraph)
    (labels rel : DataFrame) :
    ((add_node_labels g labels).error = none →
      (add_node_labels g labels).callerDf = dfDrop labels "nodes" ∧
      (dfColumns (add_node_labels g labels).callerDf).length <
        (dfColumns labels).length) ∧
    ((add_edge_relationships g2 rel).error = none →
      (add_edge_relationships g2 rel).callerDf = dfDrop (dfDrop rel "src") "dst" ∧
      (dfColumns (add_edge_relationships g2 rel).callerDf).length <
        (dfColumns rel).length) := by
  constructor
  · simp only [add_node_labels]
    split
    · intro h
      exact Option.noConfusion h
    · split
      · intro h
        exact Option.noConfusion h
      · next ncolv heq =>
          intro _
          refine ⟨rfl, ?_⟩
          simp only [dfColumns, dfDrop, List.length_map]
          exact length_filter_lt _ (dfGet_mem heq) (by simp)
  · simp only [add_edge_relationships]
    split
    · intro h
      exact Option.noConfusion h
    · split
      · next sv dv heqs heqd =>
          intro _
          refine ⟨rfl, ?_⟩
          simp only [dfColumns, dfDrop, List.length_map]
          calc (List.filter (fun p => !(p.1 = "dst" : Bool))
                  (List.filter (fun p => !(p.1 = "src" : Bool)) rel)).length
              ≤ (List.filter (fun p => !(p.1 = "src" : Bool)) rel).length :=
                List.length_filter_le _ _
            _ < rel.length := length_filter_lt _ (dfGet_mem heqs) (by simp)
      · intro h
        exact Option.noConfusion h

/-- C10 witness: both success conjuncts evaluated on concrete calls that
complete without error. -/
theorem claim10_witness :
    (add_node_labels exGraphLbl exLabels).error = none ∧
    (add_node_labels exGraphLbl exLabels).callerDf = dfDrop exLabels "nodes" ∧
    (add_edge_relationships exGraphRel exRels).error = none ∧
    (add_edge_relationships exGraphRel exRels).callerDf =
      dfDrop (dfDrop exRels "src") "dst" := by
  have h := claim10_key_columns_dropped_in_place exGraphLbl exGraphRel exLabels exRels
  exact ⟨by rfl, (h.1 (by rfl)).1, by rfl, (h.2 (by rfl)).1⟩

end Arachne
